import Mathlib

/-!
Shallow embedding of the CalorAI ingestion pipeline:
`src/scripts/usda_cleaner.py` (record normalizer) and
`src/scripts/upload_foods.py` (existing-set resolver, progress ledger,
batch upload engine).

Python floats are modelled as rationals (`ℚ`), Python strings as Lean
strings.  Python string primitives (`lower`, `upper`, `strip`, `title`,
substring test) are modelled by structurally recursive functions over the
character list, so concrete instances evaluate in the kernel.  Fallible
external collaborators (the embedding service and the remote store) are
modelled as oracles indexed by call number.
-/

/-! ## String primitives (models of the Python `str` methods used) -/

/-- Model of Python `str.lower`. -/
def pyLower (s : String) : String := ⟨s.data.map Char.toLower⟩

/-- Model of Python `str.upper`. -/
def pyUpper (s : String) : String := ⟨s.data.map Char.toUpper⟩

/-- Model of Python `str.strip` on a character list: drop whitespace
from both ends. -/
def stripChars (l : List Char) : List Char :=
  ((l.dropWhile Char.isWhitespace).reverse.dropWhile Char.isWhitespace).reverse

/-- Model of Python `str.strip`. -/
def pyStrip (s : String) : String := ⟨stripChars s.data⟩

/-- Does `l` start with `p`? (helper for the substring test). -/
def startsWithChars : List Char → List Char → Bool
  | [], _ => true
  | _ :: _, [] => false
  | p :: ps, c :: cs => p == c && startsWithChars ps cs

/-- Does `s` contain `p` as a contiguous substring?  Model of Python
`p in s`. -/
def containsChars (s p : List Char) : Bool :=
  startsWithChars p s ||
    match s with
    | [] => false
    | _ :: cs => containsChars cs p

/-- Model of Python `p in s` on strings. -/
def strContainsSub (s p : String) : Bool := containsChars s.data p.data

/-- Helper for `pyTitle`: uppercase a letter that follows a non-letter,
lowercase a letter that follows a letter. -/
def titleChars : List Char → Bool → List Char
  | [], _ => []
  | c :: cs, prevAlpha =>
    if c.isAlpha then
      (if prevAlpha then c.toLower else c.toUpper) :: titleChars cs true
    else
      c :: titleChars cs false

/-- Model of Python `str.title`. -/
def pyTitle (s : String) : String := ⟨titleChars s.data false⟩

/-! ## Data model of the cleaner (`usda_cleaner.py`) -/

/-- One entry of a raw record's `foodNutrients` table:
`nutrient_id` models `entry.get('nutrient', {}).get('id')` and `amount`
models `entry.get('amount', 0)` (with `none` covering both a missing key
and a JSON null, which the source coalesces to `0.0`). -/
structure RawNutrient where
  nutrient_id : Option Nat
  amount : Option ℚ
deriving DecidableEq

/-- A raw USDA record, restricted to the fields the cleaner reads.
`foodCategory` is `some s` when the record carries a food category object
with description `id s`, and `none` when it does not. -/
structure RawFood where
  fdcId : Option Nat
  description : Option String
  foodCategory : Option String
  foodNutrients : List RawNutrient
deriving DecidableEq

/-- The nested `nutrients` group of a cleaned record. -/
structure Nutrients where
  calcium_mg : ℚ
  iron_mg : ℚ
  potassium_mg : ℚ
  vitamin_c_mg : ℚ
  saturated_fat_g : ℚ
deriving DecidableEq

/-- A cleaned (canonical) record, as built by `clean_food_data`. -/
structure CleanFood where
  external_id : String
  name : String
  description : String
  brand : Option String
  category : String
  calories_per_100g : ℚ
  protein_per_100g : ℚ
  fat_per_100g : ℚ
  carbs_per_100g : ℚ
  fiber_per_100g : ℚ
  sugar_per_100g : ℚ
  sodium_per_100g : ℚ
  data_source : String
  nutrients : Nutrients
  embedding_text : String
deriving DecidableEq

/-! The `NUTRIENT_IDS` table of the cleaner. -/

def ENERGY_KCAL : Nat := 1008
def PROTEIN : Nat := 1003
def FAT : Nat := 1004
def CARBS : Nat := 1005
def FIBER : Nat := 1079
def SUGAR : Nat := 1063
def SODIUM : Nat := 1093
def CALCIUM : Nat := 1087
def IRON : Nat := 1089
def POTASSIUM : Nat := 1092
def VITAMIN_C : Nat := 1162
def SATURATED_FAT : Nat := 1258

/-- Model of `get_nutrient` of the cleaner: first entry whose nutrient id matches,
its amount defaulting to `0` when missing/null; `0.0` when no entry
matches (which also covers the empty table). -/
def get_nutrient (nutrients : List RawNutrient) (nutrient_id : Nat) : ℚ :=
  match nutrients.find? (fun n => decide (n.nutrient_id = some nutrient_id)) with
  | some n => n.amount.getD 0
  | none => 0

/-- The fixed brand allow-list of `extract_brand`. -/
def brandList : List String :=
  ["PILLSBURY", "SABRA", "TRIBE", "KELLOGG", "GENERAL MILLS", "KRAFT",
   "PEPSI", "COCA COLA", "MCDONALD", "BURGER KING", "SUBWAY"]

/-- Model of `extract_brand` of the cleaner: case-insensitive substring match
against the allow-list, first match wins, result title-cased. -/
def extract_brand (name : String) : Option String :=
  let name_upper := pyUpper name
  (brandList.find? (fun b => strContainsSub name_upper b)).map pyTitle

/-! ## Embedding-text derivation (`create_embedding_text`)

The Python function appends tokens to a `parts` list block by block; each
block reads a single numeric field (or a fixed pair for the composite
tags).  Each block is translated as one function producing the tokens it
appends. -/

/-- Calorie token block of `create_embedding_text`. -/
def calorie_parts (calories : ℚ) : List String :=
  if calories ≤ 50 then ["very low calorie"]
  else if calories ≤ 100 then ["low calorie"]
  else if calories ≤ 200 then ["moderate calorie"]
  else if calories ≤ 400 then ["high calorie"]
  else ["very high calorie"]

/-- Protein token block of `create_embedding_text`. -/
def protein_parts (protein : ℚ) : List String :=
  if protein ≥ 20 then ["very high protein"]
  else if protein ≥ 15 then ["high protein"]
  else if protein ≥ 10 then ["moderate protein"]
  else if protein ≥ 5 then ["some protein"]
  else ["low protein"]

/-- Fat token block of `create_embedding_text`. -/
def fat_parts (fat : ℚ) : List String :=
  if fat ≤ 3 then ["low fat"]
  else if fat ≤ 10 then ["moderate fat"]
  else ["high fat"]

/-- Carb token block of `create_embedding_text`. -/
def carb_parts (carbs : ℚ) : List String :=
  if carbs ≤ 5 then ["very low carb keto friendly"]
  else if carbs ≤ 20 then ["low carb"]
  else if carbs ≤ 45 then ["moderate carb"]
  else ["high carb"]

/-- Fiber token block of `create_embedding_text` (may be empty). -/
def fiber_parts (fiber : ℚ) : List String :=
  if fiber ≥ 10 then ["very high fiber"]
  else if fiber ≥ 5 then ["high fiber"]
  else []

/-- Sugar token block of `create_embedding_text` (may be empty). -/
def sugar_parts (sugar : ℚ) : List String :=
  if sugar ≥ 15 then ["high sugar sweet"]
  else if sugar ≤ 2 then ["sugar free"]
  else []

/-- Sodium token block of `create_embedding_text` (may be empty). -/
def sodium_parts (sodium : ℚ) : List String :=
  if sodium ≥ 600 then ["high sodium salty"]
  else if sodium ≤ 140 then ["low sodium"]
  else []

/-- Composite tag `lean protein snack` of `create_embedding_text`. -/
def lean_protein_parts (protein calories : ℚ) : List String :=
  if protein ≥ 15 ∧ calories ≤ 200 then ["lean protein snack"] else []

/-- Composite tag `ketogenic food` of `create_embedding_text`. -/
def ketogenic_parts (fat carbs : ℚ) : List String :=
  if fat ≥ 15 ∧ carbs ≤ 10 then ["ketogenic food"] else []

/-- Composite tag `filling low calorie` of `create_embedding_text`. -/
def filling_parts (fiber calories : ℚ) : List String :=
  if fiber ≥ 5 ∧ calories ≤ 150 then ["filling low calorie"] else []

/-- The full `parts` list built by `create_embedding_text`, in append
order. -/
def embedding_parts (food : CleanFood) : List String :=
  [pyLower food.name, pyLower food.category]
    ++ calorie_parts food.calories_per_100g
    ++ protein_parts food.protein_per_100g
    ++ fat_parts food.fat_per_100g
    ++ carb_parts food.carbs_per_100g
    ++ fiber_parts food.fiber_per_100g
    ++ sugar_parts food.sugar_per_100g
    ++ sodium_parts food.sodium_per_100g
    ++ lean_protein_parts food.protein_per_100g food.calories_per_100g
    ++ ketogenic_parts food.fat_per_100g food.carbs_per_100g
    ++ filling_parts food.fiber_per_100g food.calories_per_100g

/-- Model of `create_embedding_text` of the cleaner: the space-joined `parts`.
It reads only `name`, `category` and the seven per-100g numeric fields
of its argument. -/
def create_embedding_text (food : CleanFood) : String :=
  String.intercalate " " (embedding_parts food)

/-! ## Rounding and `clean_food_data` -/

/-- Round-half-to-even on rationals (the rounding mode of Python
`round`). -/
def roundHalfEven (q : ℚ) : ℤ :=
  let f := ⌊q⌋
  if q - f < 1 / 2 then f
  else if q - f > 1 / 2 then f + 1
  else if f % 2 = 0 then f else f + 1

/-- Model of Python `round(x, 2)`. -/
def round2 (q : ℚ) : ℚ := (roundHalfEven (q * 100) : ℚ) / 100

/-- Model of `clean_food_data` of the cleaner: reject on a falsy description, an
empty nutrient table, an empty stripped name, or a zero derived calorie
value; otherwise build the canonical record and attach its embedding
text. -/
def clean_food_data (raw_food : RawFood) : Option CleanFood :=
  if raw_food.description = none ∨ raw_food.description = some "" then none
  else
    let nutrients := raw_food.foodNutrients
    if nutrients = [] then none
    else
      let external_id := match raw_food.fdcId with
        | some n => toString n
        | none => ""
      let name := pyStrip (raw_food.description.getD "")
      let category := raw_food.foodCategory.getD "Unknown"
      let calories := get_nutrient nutrients ENERGY_KCAL
      let protein := get_nutrient nutrients PROTEIN
      let fat := get_nutrient nutrients FAT
      let carbs := get_nutrient nutrients CARBS
      let fiber := get_nutrient nutrients FIBER
      let sugar0 := get_nutrient nutrients SUGAR
      let sugar := if sugar0 = 0 then get_nutrient nutrients 2000 else sugar0
      let sodium := get_nutrient nutrients SODIUM
      if name = "" ∨ calories = 0 then none
      else
        let base : CleanFood :=
          { external_id := external_id
            name := name
            description := name
            brand := extract_brand name
            category := category
            calories_per_100g := round2 calories
            protein_per_100g := round2 protein
            fat_per_100g := round2 fat
            carbs_per_100g := round2 carbs
            fiber_per_100g := round2 fiber
            sugar_per_100g := round2 sugar
            sodium_per_100g := round2 sodium
            data_source := "usda"
            nutrients :=
              { calcium_mg := round2 (get_nutrient nutrients CALCIUM)
                iron_mg := round2 (get_nutrient nutrients IRON)
                potassium_mg := round2 (get_nutrient nutrients POTASSIUM)
                vitamin_c_mg := round2 (get_nutrient nutrients VITAMIN_C)
                saturated_fat_g := round2 (get_nutrient nutrients SATURATED_FAT) }
            embedding_text := "" }
        some { base with embedding_text := create_embedding_text base }

/-! ## The cleaner's processing loop (`process_usda_json`) -/

/-- Truthiness of the optional limit argument: Python `if limit:` is
false for both `None` and `0`. -/
def limitTruthy : Option Nat → Bool
  | none => false
  | some n => decide (n ≠ 0)

/-- The record loop of `process_usda_json`: break when the (truthy)
limit has been reached, otherwise clean the next record, collecting
cleaned records and counting skips. -/
def cleanFoodsLoop (limit : Option Nat) :
    List RawFood → List CleanFood → Nat → List CleanFood × Nat
  | [], cleaned_foods, skipped => (cleaned_foods, skipped)
  | food :: rest, cleaned_foods, skipped =>
    if limitTruthy limit ∧ limit.getD 0 ≤ cleaned_foods.length then
      (cleaned_foods, skipped)
    else
      match clean_food_data food with
      | some c => cleanFoodsLoop limit rest (cleaned_foods ++ [c]) skipped
      | none => cleanFoodsLoop limit rest cleaned_foods (skipped + 1)

/-- The uploader `main`'s limit application: `if limit:` then truncate
the input list. -/
def applyLimit (limit : Option Nat) (foods : List CleanFood) : List CleanFood :=
  if limitTruthy limit then foods.take (limit.getD 0) else foods

/-! ## Specification-side bucket token tables (for the refinement claims)

These definitions follow the wording of the specification's bucket rules
in section 4.1; they are compared against the code-derived token blocks
above. -/

/-- Calorie tokens as stated by the specification: very low (at most
50), low (at most 100), moderate (at most 200), high (at most 400), very
high (above 400). -/
def spec_calorie_tokens (calories : ℚ) : List String :=
  if calories ≤ 50 then ["very low calorie"]
  else if calories ≤ 100 then ["low calorie"]
  else if calories ≤ 200 then ["moderate calorie"]
  else if calories ≤ 400 then ["high calorie"]
  else ["very high calorie"]

/-- Protein tokens as stated by the specification: very high (at least
20), high (at least 15), moderate (at least 10), some (at least 5), low
(below 5). -/
def spec_protein_tokens (protein : ℚ) : List String :=
  if 20 ≤ protein then ["very high protein"]
  else if 15 ≤ protein then ["high protein"]
  else if 10 ≤ protein then ["moderate protein"]
  else if 5 ≤ protein then ["some protein"]
  else ["low protein"]

/-- Fat tokens as stated by the specification: low (at most 3), moderate
(at most 10), high (above 10). -/
def spec_fat_tokens (fat : ℚ) : List String :=
  if fat ≤ 3 then ["low fat"]
  else if fat ≤ 10 then ["moderate fat"]
  else ["high fat"]

/-- Carb tokens as stated by the specification: very low/keto (at most
5), low (at most 20), moderate (at most 45), high (above 45). -/
def spec_carb_tokens (carbs : ℚ) : List String :=
  if carbs ≤ 5 then ["very low carb keto friendly"]
  else if carbs ≤ 20 then ["low carb"]
  else if carbs ≤ 45 then ["moderate carb"]
  else ["high carb"]

/-- Fiber tokens as stated by the specification: very high (at least
10) or high (at least 5), otherwise nothing. -/
def spec_fiber_tokens (fiber : ℚ) : List String :=
  if 10 ≤ fiber then ["very high fiber"]
  else if 5 ≤ fiber then ["high fiber"]
  else []

/-- Sugar tokens as stated by the specification: high/sweet (at least
15) or sugar free (at most 2), otherwise nothing. -/
def spec_sugar_tokens (sugar : ℚ) : List String :=
  if 15 ≤ sugar then ["high sugar sweet"]
  else if sugar ≤ 2 then ["sugar free"]
  else []

/-- Sodium tokens as stated by the specification: high/salty (at least
600) or low (at most 140), otherwise nothing. -/
def spec_sodium_tokens (sodium : ℚ) : List String :=
  if 600 ≤ sodium then ["high sodium salty"]
  else if sodium ≤ 140 then ["low sodium"]
  else []

/-- Composite tag as stated by the specification: lean protein snack
when protein at least 15 and calories at most 200. -/
def spec_lean_protein_tokens (protein calories : ℚ) : List String :=
  if 15 ≤ protein ∧ calories ≤ 200 then ["lean protein snack"] else []

/-- Composite tag as stated by the specification: ketogenic food when
fat at least 15 and carbs at most 10. -/
def spec_ketogenic_tokens (fat carbs : ℚ) : List String :=
  if 15 ≤ fat ∧ carbs ≤ 10 then ["ketogenic food"] else []

/-- Composite tag as stated by the specification: filling low calorie
when fiber at least 5 and calories at most 150. -/
def spec_filling_tokens (fiber calories : ℚ) : List String :=
  if 5 ≤ fiber ∧ calories ≤ 150 then ["filling low calorie"] else []

/-! ## Bucket membership (derived from the code's thresholds) -/

/-- Index of the calorie bucket a value falls in (code thresholds). -/
def calorieBucket (calories : ℚ) : Nat :=
  if calories ≤ 50 then 0
  else if calories ≤ 100 then 1
  else if calories ≤ 200 then 2
  else if calories ≤ 400 then 3
  else 4

/-- Index of the protein bucket a value falls in (code thresholds). -/
def proteinBucket (protein : ℚ) : Nat :=
  if protein ≥ 20 then 0
  else if protein ≥ 15 then 1
  else if protein ≥ 10 then 2
  else if protein ≥ 5 then 3
  else 4

/-- Index of the fat bucket a value falls in (code thresholds). -/
def fatBucket (fat : ℚ) : Nat :=
  if fat ≤ 3 then 0 else if fat ≤ 10 then 1 else 2

/-- Index of the carb bucket a value falls in (code thresholds). -/
def carbBucket (carbs : ℚ) : Nat :=
  if carbs ≤ 5 then 0
  else if carbs ≤ 20 then 1
  else if carbs ≤ 45 then 2
  else 3

/-- Index of the fiber bucket a value falls in (code thresholds). -/
def fiberBucket (fiber : ℚ) : Nat :=
  if fiber ≥ 10 then 0 else if fiber ≥ 5 then 1 else 2

/-- Index of the sugar bucket a value falls in (code thresholds). -/
def sugarBucket (sugar : ℚ) : Nat :=
  if sugar ≥ 15 then 0 else if sugar ≤ 2 then 1 else 2

/-- Index of the sodium bucket a value falls in (code thresholds). -/
def sodiumBucket (sodium : ℚ) : Nat :=
  if sodium ≥ 600 then 0 else if sodium ≤ 140 then 1 else 2

/-- Membership in the `lean protein snack` composite bucket. -/
def leanSnackBucket (protein calories : ℚ) : Bool :=
  decide (protein ≥ 15 ∧ calories ≤ 200)

/-- Membership in the `ketogenic food` composite bucket. -/
def ketoBucket (fat carbs : ℚ) : Bool :=
  decide (fat ≥ 15 ∧ carbs ≤ 10)

/-- Membership in the `filling low calorie` composite bucket. -/
def fillingBucket (fiber calories : ℚ) : Bool :=
  decide (fiber ≥ 5 ∧ calories ≤ 150)

lemma calorie_parts_congr {a b : ℚ} (h : calorieBucket a = calorieBucket b) :
    calorie_parts a = calorie_parts b := by
  unfold calorieBucket at h
  unfold calorie_parts
  split_ifs at h ⊢ <;> first | rfl | omega

lemma protein_parts_congr {a b : ℚ} (h : proteinBucket a = proteinBucket b) :
    protein_parts a = protein_parts b := by
  unfold proteinBucket at h
  unfold protein_parts
  split_ifs at h ⊢ <;> first | rfl | omega

lemma fat_parts_congr {a b : ℚ} (h : fatBucket a = fatBucket b) :
    fat_parts a = fat_parts b := by
  unfold fatBucket at h
  unfold fat_parts
  split_ifs at h ⊢ <;> first | rfl | omega

lemma carb_parts_congr {a b : ℚ} (h : carbBucket a = carbBucket b) :
    carb_parts a = carb_parts b := by
  unfold carbBucket at h
  unfold carb_parts
  split_ifs at h ⊢ <;> first | rfl | omega

lemma fiber_parts_congr {a b : ℚ} (h : fiberBucket a = fiberBucket b) :
    fiber_parts a = fiber_parts b := by
  unfold fiberBucket at h
  unfold fiber_parts
  split_ifs at h ⊢ <;> first | rfl | omega

lemma sugar_parts_congr {a b : ℚ} (h : sugarBucket a = sugarBucket b) :
    sugar_parts a = sugar_parts b := by
  unfold sugarBucket at h
  unfold sugar_parts
  split_ifs at h ⊢ <;> first | rfl | omega

lemma sodium_parts_congr {a b : ℚ} (h : sodiumBucket a = sodiumBucket b) :
    sodium_parts a = sodium_parts b := by
  unfold sodiumBucket at h
  unfold sodium_parts
  split_ifs at h ⊢ <;> first | rfl | omega

lemma lean_protein_parts_congr {p1 c1 p2 c2 : ℚ}
    (h : leanSnackBucket p1 c1 = leanSnackBucket p2 c2) :
    lean_protein_parts p1 c1 = lean_protein_parts p2 c2 := by
  unfold leanSnackBucket at h
  rw [decide_eq_decide] at h
  unfold lean_protein_parts
  split_ifs <;> simp_all

lemma ketogenic_parts_congr {f1 c1 f2 c2 : ℚ}
    (h : ketoBucket f1 c1 = ketoBucket f2 c2) :
    ketogenic_parts f1 c1 = ketogenic_parts f2 c2 := by
  unfold ketoBucket at h
  rw [decide_eq_decide] at h
  unfold ketogenic_parts
  split_ifs <;> simp_all

lemma filling_parts_congr {f1 c1 f2 c2 : ℚ}
    (h : fillingBucket f1 c1 = fillingBucket f2 c2) :
    filling_parts f1 c1 = filling_parts f2 c2 := by
  unfold fillingBucket at h
  rw [decide_eq_decide] at h
  unfold filling_parts
  split_ifs <;> simp_all

/-- C4: Embedding-text derivation is deterministic and depends only on
bucket membership: for two cleaned records with the same name and
category that fall in the same bucket of every threshold rule (calorie,
protein, fat, carb, fiber, sugar, sodium, and the three composite tags),
`create_embedding_text` returns identical strings regardless of the
exact numeric differences within each bucket. -/
theorem claim_C4_bucket_determinism (f g : CleanFood)
    (hname : f.name = g.name) (hcat : f.category = g.category)
    (hcal : calorieBucket f.calories_per_100g = calorieBucket g.calories_per_100g)
    (hprot : proteinBucket f.protein_per_100g = proteinBucket g.protein_per_100g)
    (hfat : fatBucket f.fat_per_100g = fatBucket g.fat_per_100g)
    (hcarb : carbBucket f.carbs_per_100g = carbBucket g.carbs_per_100g)
    (hfib : fiberBucket f.fiber_per_100g = fiberBucket g.fiber_per_100g)
    (hsug : sugarBucket f.sugar_per_100g = sugarBucket g.sugar_per_100g)
    (hsod : sodiumBucket f.sodium_per_100g = sodiumBucket g.sodium_per_100g)
    (hlean : leanSnackBucket f.protein_per_100g f.calories_per_100g
      = leanSnackBucket g.protein_per_100g g.calories_per_100g)
    (hketo : ketoBucket f.fat_per_100g f.carbs_per_100g
      = ketoBucket g.fat_per_100g g.carbs_per_100g)
    (hfill : fillingBucket f.fiber_per_100g f.calories_per_100g
      = fillingBucket g.fiber_per_100g g.calories_per_100g) :
    create_embedding_text f = create_embedding_text g := by
  unfold create_embedding_text embedding_parts
  rw [hname, hcat, calorie_parts_congr hcal, protein_parts_congr hprot,
    fat_parts_congr hfat, carb_parts_congr hcarb, fiber_parts_congr hfib,
    sugar_parts_congr hsug, sodium_parts_congr hsod,
    lean_protein_parts_congr hlean, ketogenic_parts_congr hketo,
    filling_parts_congr hfill]

/-- A concrete cleaned record used to witness C4. -/
def c4FoodA : CleanFood :=
  { external_id := "a1", name := "Yogurt", description := "Yogurt",
    brand := none, category := "Dairy",
    calories_per_100g := 30, protein_per_100g := 2, fat_per_100g := 1,
    carbs_per_100g := 3, fiber_per_100g := 1, sugar_per_100g := 1,
    sodium_per_100g := 100, data_source := "usda",
    nutrients := ⟨0, 0, 0, 0, 0⟩, embedding_text := "" }

/-- A second concrete cleaned record, numerically different from
`c4FoodA` in every numeric field but in the same buckets. -/
def c4FoodB : CleanFood :=
  { external_id := "b2", name := "Yogurt", description := "Yogurt",
    brand := none, category := "Dairy",
    calories_per_100g := 45, protein_per_100g := 4, fat_per_100g := 2,
    carbs_per_100g := 4, fiber_per_100g := 2, sugar_per_100g := 0.5,
    sodium_per_100g := 120, data_source := "usda",
    nutrients := ⟨0, 0, 0, 0, 0⟩, embedding_text := "" }

/-- Witness for C4 at two concrete records whose numeric fields all
differ within their buckets. -/
theorem claim_C4_witness :
    create_embedding_text c4FoodA = create_embedding_text c4FoodB :=
  claim_C4_bucket_determinism c4FoodA c4FoodB rfl rfl
    (by norm_num [calorieBucket, c4FoodA, c4FoodB])
    (by norm_num [proteinBucket, c4FoodA, c4FoodB])
    (by norm_num [fatBucket, c4FoodA, c4FoodB])
    (by norm_num [carbBucket, c4FoodA, c4FoodB])
    (by norm_num [fiberBucket, c4FoodA, c4FoodB])
    (by norm_num [sugarBucket, c4FoodA, c4FoodB])
    (by norm_num [sodiumBucket, c4FoodA, c4FoodB])
    (by norm_num [leanSnackBucket, c4FoodA, c4FoodB])
    (by norm_num [ketoBucket, c4FoodA, c4FoodB])
    (by norm_num [fillingBucket, c4FoodA, c4FoodB])

/-- C5: Bucket boundaries: a calorie value of exactly 50 produces the
token `very low calorie` (not `low calorie`), a calorie value of 50.01
produces `low calorie` (not `very low calorie`), a protein value of
exactly 20 produces `very high protein`, and every token block of
`create_embedding_text` agrees with the specification's inclusive and
exclusive thresholds on all inputs. -/
theorem claim_C5_bucket_boundaries :
    calorie_parts 50 = ["very low calorie"]
    ∧ calorie_parts 50.01 = ["low calorie"]
    ∧ protein_parts 20 = ["very high protein"]
    ∧ (∀ q : ℚ, calorie_parts q = spec_calorie_tokens q)
    ∧ (∀ q : ℚ, protein_parts q = spec_protein_tokens q)
    ∧ (∀ q : ℚ, fat_parts q = spec_fat_tokens q)
    ∧ (∀ q : ℚ, carb_parts q = spec_carb_tokens q)
    ∧ (∀ q : ℚ, fiber_parts q = spec_fiber_tokens q)
    ∧ (∀ q : ℚ, sugar_parts q = spec_sugar_tokens q)
    ∧ (∀ q : ℚ, sodium_parts q = spec_sodium_tokens q)
    ∧ (∀ p c : ℚ, lean_protein_parts p c = spec_lean_protein_tokens p c)
    ∧ (∀ f c : ℚ, ketogenic_parts f c = spec_ketogenic_tokens f c)
    ∧ (∀ f c : ℚ, filling_parts f c = spec_filling_tokens f c) := by
  refine ⟨?_, ?_, ?_, fun q => rfl, fun q => rfl, fun q => rfl, fun q => rfl,
    fun q => rfl, fun q => rfl, fun q => rfl, fun p c => rfl, fun f c => rfl,
    fun f c => rfl⟩
  · norm_num [calorie_parts]
  · norm_num [calorie_parts]
  · norm_num [protein_parts]

/-- C10: A limit of 0 disables limiting entirely rather than selecting
zero records: the cleaner's record loop with limit 0 behaves exactly as
with no limit (the full input is processed), and the uploader's limit
application with limit 0 leaves the food list untouched. -/
theorem claim_C10_limit_zero_means_no_limit :
    (∀ (raw_foods : List RawFood) (cleaned : List CleanFood) (skipped : Nat),
        cleanFoodsLoop (some 0) raw_foods cleaned skipped
          = cleanFoodsLoop none raw_foods cleaned skipped)
    ∧ (∀ foods : List CleanFood, applyLimit (some 0) foods = foods)
    ∧ (∀ foods : List CleanFood, applyLimit none foods = foods) := by
  refine ⟨?_, ?_, ?_⟩
  · intro raw_foods
    induction raw_foods with
    | nil => intro cleaned skipped; rfl
    | cons food rest ih =>
      intro cleaned skipped
      simp only [cleanFoodsLoop, limitTruthy]
      norm_num
      match clean_food_data food with
      | some c => exact ih (cleaned ++ [c]) skipped
      | none => exact ih cleaned (skipped + 1)
  · intro foods; simp [applyLimit, limitTruthy]
  · intro foods; simp [applyLimit, limitTruthy]

/-! ## C6 and C8: properties of `clean_food_data` -/

/-- A raw record whose description is whitespace-only but nonempty,
with nutrient entries and a nonzero derived calorie value. -/
def c6Raw : RawFood :=
  { fdcId := some 7, description := some "   ", foodCategory := none,
    foodNutrients := [⟨some 1008, some 100⟩] }

/-- Counterexample to C6 as stated: `c6Raw` has a present and nonempty
description, a nonempty nutrient table, and derived calories 100 (not
zero), yet `clean_food_data` rejects it (the name is empty after
whitespace stripping). -/
theorem claim_C6_counterexample :
    clean_food_data c6Raw = none
    ∧ c6Raw.description = some "   "
    ∧ "   " ≠ ""
    ∧ c6Raw.foodNutrients ≠ []
    ∧ get_nutrient c6Raw.foodNutrients ENERGY_KCAL = 100
    ∧ (100 : ℚ) ≠ 0 :=
  ⟨rfl, rfl, by decide, by decide, rfl, by norm_num⟩

/-- C6 (amended): `clean_food_data` returns no record exactly when the
raw record's name/description field is absent, empty, or whitespace-only
(empty after stripping), when the record has no nutrient entries at all,
or when the derived calorie value is exactly zero; for every other raw
record it returns a canonical record. -/
theorem claim_C6_normalizer_rejection (raw : RawFood) :
    clean_food_data raw = none ↔
      (pyStrip (raw.description.getD "") = ""
        ∨ raw.foodNutrients = []
        ∨ get_nutrient raw.foodNutrients ENERGY_KCAL = 0) := by
  simp only [clean_food_data]
  by_cases hA : raw.description = none ∨ raw.description = some ""
  · rw [if_pos hA]
    simp only [true_iff]
    left
    rcases hA with h | h <;> simp [h, pyStrip, stripChars]
  · rw [if_neg hA]
    by_cases hB : raw.foodNutrients = []
    · rw [if_pos hB]
      simp [hB]
    · rw [if_neg hB]
      by_cases hC : pyStrip (raw.description.getD "") = ""
        ∨ get_nutrient raw.foodNutrients ENERGY_KCAL = 0
      · rw [if_pos hC]
        simp only [true_iff]
        tauto
      · rw [if_neg hC]
        push_neg at hC
        simp [hB, hC.1, hC.2]

/-- Witness for the amended C6 at a concrete rejected record: applying
the equivalence right-to-left at `c6Raw` with the stripped name empty. -/
theorem claim_C6_witness : clean_food_data c6Raw = none :=
  (claim_C6_normalizer_rejection c6Raw).mpr (Or.inl (by decide))

/-- C8: every record returned by `clean_food_data` has its description
field equal to its name field, the name is the whitespace-stripped raw
description, the data_source field is the string `usda`, and the
category field defaults to `Unknown` when the raw record carries no food
category. -/
theorem claim_C8_normalizer_output_invariant (raw : RawFood) (c : CleanFood)
    (h : clean_food_data raw = some c) :
    c.description = c.name
    ∧ c.name = pyStrip (raw.description.getD "")
    ∧ c.data_source = "usda"
    ∧ (raw.foodCategory = none → c.category = "Unknown") := by
  simp only [clean_food_data] at h
  split_ifs at h
  all_goals
    first
      | exact Option.noConfusion h
      | · injection h with h4
          subst h4
          exact ⟨rfl, rfl, rfl, fun hcat => by simp [hcat]⟩

/-- A raw record accepted by the normalizer, used to witness C8. -/
def c8Raw : RawFood :=
  { fdcId := some 1, description := some "Apple", foodCategory := none,
    foodNutrients := [⟨some 1008, some 52⟩] }

/-- The canonical record `clean_food_data` produces for `c8Raw` (all
derived fields spelled as the source derives them). -/
def c8Clean : CleanFood :=
  { external_id := "1", name := "Apple", description := "Apple",
    brand := none, category := "Unknown",
    calories_per_100g := round2 (get_nutrient c8Raw.foodNutrients ENERGY_KCAL),
    protein_per_100g := round2 (get_nutrient c8Raw.foodNutrients PROTEIN),
    fat_per_100g := round2 (get_nutrient c8Raw.foodNutrients FAT),
    carbs_per_100g := round2 (get_nutrient c8Raw.foodNutrients CARBS),
    fiber_per_100g := round2 (get_nutrient c8Raw.foodNutrients FIBER),
    sugar_per_100g := round2 (if get_nutrient c8Raw.foodNutrients SUGAR = 0
      then get_nutrient c8Raw.foodNutrients 2000
      else get_nutrient c8Raw.foodNutrients SUGAR),
    sodium_per_100g := round2 (get_nutrient c8Raw.foodNutrients SODIUM),
    data_source := "usda",
    nutrients :=
      { calcium_mg := round2 (get_nutrient c8Raw.foodNutrients CALCIUM),
        iron_mg := round2 (get_nutrient c8Raw.foodNutrients IRON),
        potassium_mg := round2 (get_nutrient c8Raw.foodNutrients POTASSIUM),
        vitamin_c_mg := round2 (get_nutrient c8Raw.foodNutrients VITAMIN_C),
        saturated_fat_g := round2 (get_nutrient c8Raw.foodNutrients SATURATED_FAT) },
    embedding_text := "" }

/-- Witness for C8 at the concrete accepted record `c8Raw`. -/
theorem claim_C8_witness :
    ({ c8Clean with embedding_text := create_embedding_text c8Clean } : CleanFood).description
      = ({ c8Clean with embedding_text := create_embedding_text c8Clean } : CleanFood).name
    ∧ ({ c8Clean with embedding_text := create_embedding_text c8Clean } : CleanFood).name
      = pyStrip (c8Raw.description.getD "")
    ∧ ({ c8Clean with embedding_text := create_embedding_text c8Clean } : CleanFood).data_source = "usda"
    ∧ (c8Raw.foodCategory = none →
        ({ c8Clean with embedding_text := create_embedding_text c8Clean } : CleanFood).category = "Unknown") :=
  claim_C8_normalizer_output_invariant c8Raw
    { c8Clean with embedding_text := create_embedding_text c8Clean } rfl

/-! ## Data model of the uploader (`upload_foods.py`) -/

/-- The progress ledger (`upload_progress.json`): uploaded external ids,
index of the next batch to process, and running uploaded count. -/
structure Progress where
  uploaded_ids : List String
  last_batch : Nat
  total_uploaded : Nat
deriving DecidableEq

/-- The default-empty ledger state returned by `load_progress` when no
file exists. -/
def defaultProgress : Progress := ⟨[], 0, 0⟩

/-- Model of `load_progress`: the persisted ledger, or the default-empty state
when the file is missing (or unreadable). -/
def load_progress (file : Option Progress) : Progress := file.getD defaultProgress

/-- Model of one `range(offset, offset+999)` page
query against the remote `foods` table, whose external ids in table
order are `db`. -/
def pageQuery (db : List String) (offset : Nat) : List String :=
  (db.drop offset).take 1000

/-- The paging loop of `get_existing_food_ids`.  `failAt = some qf`
makes the `qf`-th query raise (modelling a transport failure), which the
surrounding handler turns into `none`. `q` counts queries issued so
far. -/
def fetchPages (db : List String) (failAt : Option Nat) (offset q : Nat)
    (all_ids : Finset String) : Option (Finset String × Nat) :=
  if failAt = some q then none
  else if pageQuery db offset = [] then some (all_ids, q + 1)
  else if h1 : (pageQuery db offset).length < 1000 then
    some (all_ids ∪ (pageQuery db offset).toFinset, q + 1)
  else
    fetchPages db failAt (offset + 1000) (q + 1)
      (all_ids ∪ (pageQuery db offset).toFinset)
termination_by db.length - offset
decreasing_by
  simp only [pageQuery, List.length_take, List.length_drop] at h1
  omega

/-- Model of `get_existing_food_ids`: page through the whole table collecting
external ids; on any query failure return the empty set instead. -/
def get_existing_food_ids (db : List String) (failAt : Option Nat) : Finset String :=
  match fetchPages db failAt 0 0 ∅ with
  | some (ids, _) => ids
  | none => ∅

/-- Number of page queries a failure-free `get_existing_food_ids` run
issues against table `db`. -/
def pagesRead (db : List String) : Nat :=
  match fetchPages db none 0 0 ∅ with
  | some (_, q) => q
  | none => 0

/-- Model of `filter_new_foods`: keep the input records whose external id is in
neither the existing-ids set nor the ledger's uploaded set; the ledger
is only read, and is returned unchanged. -/
def filter_new_foods (foods : List CleanFood) (existing_ids : Finset String)
    (progress : Progress) : List CleanFood × Progress :=
  let uploaded_ids := progress.uploaded_ids
  (foods.filter (fun food =>
      decide (food.external_id ∉ existing_ids ∧ food.external_id ∉ uploaded_ids)),
    progress)

/-- Observable outcome of one `batch_upload_foods` run: the returned
count, the in-memory `progress` dict at return, the progress file on
disk (`none` = deleted/absent), all ids upserted during the run in
order, and whether the run stopped in the exception handler. -/
structure RunOutcome where
  returned : Nat
  mem : Progress
  file : Option Progress
  upserted : List String
  halted : Bool
deriving DecidableEq

/-- The `total_batches` count of `batch_upload_foods`. -/
def totalBatches (foods : List CleanFood) (batch_size : Nat) : Nat :=
  (foods.length + batch_size - 1) / batch_size

/-- The `i`-th batch: `foods[i*batch_size : min((i+1)*batch_size, len)]`. -/
def batchOf (foods : List CleanFood) (batch_size i : Nat) : List CleanFood :=
  (foods.drop (i * batch_size)).take batch_size

/-- The external ids of the `i`-th batch (`batch_ids` in the source). -/
def batchIds (foods : List CleanFood) (batch_size i : Nat) : List String :=
  (batchOf foods batch_size i).map (fun food => food.external_id)

/-- The batch loop of `batch_upload_foods`.  `embed i = none` models
`generate_embeddings` raising after retry exhaustion on batch `i`;
`embed i = some m` models it returning `m` vectors.  `upsert i = false`
models the batch upsert raising.  On an exception the run returns the
current count with the file as last saved; on an embedding-count
mismatch the batch is skipped with `continue`; on success the ledger is
extended, saved, and the loop advances.  When the loop completes, the
progress file is removed.  The fuel argument is the number of loop
iterations left, `total_batches - i`. -/
def uploadLoop (foods : List CleanFood) (batch_size : Nat)
    (embed : Nat → Option Nat) (upsert : Nat → Bool) :
    Nat → Nat → Nat → Progress → Option Progress → List String → RunOutcome
  | 0, _, uploaded_count, progress, _, upserted =>
      ⟨uploaded_count, progress, none, upserted, false⟩
  | fuel + 1, i, uploaded_count, progress, file, upserted =>
    match embed i with
    | none => ⟨uploaded_count, progress, file, upserted, true⟩
    | some m =>
      if m = (batchOf foods batch_size i).length then
        if upsert i then
          let ids := batchIds foods batch_size i
          let count2 := uploaded_count + (batchOf foods batch_size i).length
          let progress2 : Progress := ⟨progress.uploaded_ids ++ ids, i + 1, count2⟩
          uploadLoop foods batch_size embed upsert fuel (i + 1) count2 progress2
            (some progress2) (upserted ++ ids)
        else ⟨uploaded_count, progress, file, upserted, true⟩
      else
        uploadLoop foods batch_size embed upsert fuel (i + 1) uploaded_count
          progress file upserted

/-- Model of `batch_upload_foods`: return 0 immediately on an empty input,
otherwise load the ledger and run the batch loop from the ledger's
recorded batch index. -/
def batch_upload_foods (foods : List CleanFood) (batch_size : Nat)
    (embed : Nat → Option Nat) (upsert : Nat → Bool)
    (file : Option Progress) : RunOutcome :=
  if foods = [] then ⟨0, load_progress file, file, [], false⟩
  else
    uploadLoop foods batch_size embed upsert
      (totalBatches foods batch_size - (load_progress file).last_batch)
      (load_progress file).last_batch
      (load_progress file).total_uploaded
      (load_progress file) file []

/-- The ids of batches `start, start+1, ..., start+k-1`, concatenated in
order. -/
def idsOfBatches (foods : List CleanFood) (batch_size start k : Nat) : List String :=
  (List.range' start k).flatMap (fun i => batchIds foods batch_size i)

/-- The ids of the batches among `start..start+k-1` whose embedding call
returns exactly as many vectors as the batch holds records (the batches
a failure-free run commits). -/
def committedIds (foods : List CleanFood) (batch_size : Nat)
    (embed : Nat → Option Nat) (start k : Nat) : List String :=
  ((List.range' start k).filter
      (fun i => decide (embed i = some (batchOf foods batch_size i).length))).flatMap
    (fun i => batchIds foods batch_size i)

/-- C9: `filter_new_foods` returns exactly those input records whose
external id is neither in the existing-ids set nor in the ledger's
uploaded set, preserving the input's relative order (the output is a
sublist of the input), and it leaves the ledger state unmodified. -/
theorem claim_C9_filter_new_foods (foods : List CleanFood)
    (existing_ids : Finset String) (progress : Progress) :
    (filter_new_foods foods existing_ids progress).1
      = foods.filter (fun food =>
          decide (food.external_id ∉ existing_ids
            ∧ food.external_id ∉ progress.uploaded_ids))
    ∧ (∀ food : CleanFood,
        food ∈ (filter_new_foods foods existing_ids progress).1 ↔
          food ∈ foods ∧ food.external_id ∉ existing_ids
            ∧ food.external_id ∉ progress.uploaded_ids)
    ∧ ((filter_new_foods foods existing_ids progress).1).Sublist foods
    ∧ (filter_new_foods foods existing_ids progress).2 = progress := by
  refine ⟨rfl, ?_, List.filter_sublist foods, rfl⟩
  intro food
  simp [filter_new_foods, List.mem_filter]

/-! ## C7: the existing-set resolver -/

lemma fetchPages_clean (db : List String) :
    ∀ (n offset q : Nat) (acc : Finset String), db.length - offset ≤ n →
      fetchPages db none offset q acc
        = some (acc ∪ (db.drop offset).toFinset,
            q + (db.length - offset) / 1000 + 1) := by
  intro n
  induction n with
  | zero =>
    intro offset q acc h
    have h0 : db.length - offset = 0 := by omega
    have hd : db.drop offset = [] := List.drop_eq_nil_of_le (by omega)
    rw [fetchPages]
    simp [pageQuery, hd, h0]
  | succ n ih =>
    intro offset q acc h
    by_cases hempty : pageQuery db offset = []
    · have hlen0 : db.length - offset = 0 := by
        have hc := congrArg List.length hempty
        simp [pageQuery] at hc
        omega
      have hd : db.drop offset = [] := List.drop_eq_nil_of_le (by omega)
      rw [fetchPages]
      simp [hempty, hd, hlen0]
    · have hlen : (pageQuery db offset).length = min 1000 (db.length - offset) := by
        simp [pageQuery]
      by_cases hshort : (pageQuery db offset).length < 1000
      · have hlt : db.length - offset < 1000 := by omega
        have htake : pageQuery db offset = db.drop offset := by
          apply List.take_of_length_le
          simp
          omega
        have hdiv : (db.length - offset) / 1000 = 0 := by omega
        rw [fetchPages]
        rw [if_neg (by simp), if_neg hempty, dif_pos hshort]
        rw [htake, hdiv]
      · have hge : 1000 ≤ db.length - offset := by omega
        have hsplit : (db.drop offset).toFinset
            = (pageQuery db offset).toFinset ∪ (db.drop (offset + 1000)).toFinset := by
          conv_lhs => rw [← List.take_append_drop 1000 (db.drop offset)]
          rw [List.toFinset_append, List.drop_drop]
          rfl
        rw [fetchPages]
        rw [if_neg (by simp), if_neg hempty, dif_neg hshort]
        rw [ih (offset + 1000) (q + 1) (acc ∪ (pageQuery db offset).toFinset) (by omega)]
        have hnat : q + 1 + (db.length - (offset + 1000)) / 1000 + 1
            = q + (db.length - offset) / 1000 + 1 := by omega
        rw [hsplit, hnat, Finset.union_assoc]

lemma fetchPages_fail (db : List String) (qf : Nat) :
    ∀ (n offset q : Nat) (acc : Finset String), db.length - offset ≤ n →
      q ≤ qf → qf ≤ q + (db.length - offset) / 1000 →
      fetchPages db (some qf) offset q acc = none := by
  intro n
  induction n with
  | zero =>
    intro offset q acc h hq1 hq2
    have h0 : db.length - offset = 0 := by omega
    have hqq : qf = q := by
      rw [h0] at hq2
      omega
    rw [fetchPages]
    simp [hqq]
  | succ n ih =>
    intro offset q acc h hq1 hq2
    by_cases hqq : qf = q
    · rw [fetchPages]
      simp [hqq]
    · have hlen : (pageQuery db offset).length = min 1000 (db.length - offset) := by
        simp [pageQuery]
      by_cases hempty : pageQuery db offset = []
      · exfalso
        have hc := congrArg List.length hempty
        simp [pageQuery] at hc
        omega
      · by_cases hshort : (pageQuery db offset).length < 1000
        · exfalso
          omega
        · rw [fetchPages]
          rw [if_neg (by simp [hqq]), if_neg hempty, dif_neg hshort]
          exact ih (offset + 1000) (q + 1) (acc ∪ (pageQuery db offset).toFinset)
            (by omega) (by omega) (by omega)

/-- C7: `get_existing_food_ids` reads the remote table in pages of fixed
size 1000, stopping only once a page comes back with fewer than 1000
rows (every earlier page is full), and returns the union of all pages
read, which is the set of all external ids of the table; if any issued
query raises, it returns the empty set instead of aborting the run. -/
theorem claim_C7_existing_set_resolver (db : List String) (failAt : Option Nat) :
    get_existing_food_ids db none = db.toFinset
    ∧ pagesRead db = db.length / 1000 + 1
    ∧ (pageQuery db ((pagesRead db - 1) * 1000)).length < 1000
    ∧ (∀ j, j + 1 < pagesRead db → (pageQuery db (j * 1000)).length = 1000)
    ∧ (∀ qf, failAt = some qf → qf < pagesRead db →
        get_existing_food_ids db failAt = ∅) := by
  have hclean := fetchPages_clean db db.length 0 0 ∅ (by omega)
  have hget : get_existing_food_ids db none = db.toFinset := by
    simp only [get_existing_food_ids, hclean]
    simp
  have hpages : pagesRead db = db.length / 1000 + 1 := by
    simp only [pagesRead, hclean]
    omega
  refine ⟨hget, hpages, ?_, ?_, ?_⟩
  · rw [hpages]
    simp only [pageQuery, List.length_take, List.length_drop]
    omega
  · intro j hj
    rw [hpages] at hj
    simp only [pageQuery, List.length_take, List.length_drop]
    omega
  · intro qf hf hqf
    rw [hpages] at hqf
    have hfail := fetchPages_fail db qf db.length 0 0 ∅ (by omega) (by omega) (by omega)
    rw [hf]
    simp [get_existing_food_ids, hfail]

/-- A concrete remote table spanning two pages, used to witness C7. -/
def c7Table : List String := List.replicate 1001 "x"

/-- Witness for C7 at a concrete 1001-row table: two pages are read, the
first page is full, the failure-free result is the table's id set, and a
failure on query 0 yields the empty set. -/
theorem claim_C7_witness :
    pagesRead c7Table = 2
    ∧ get_existing_food_ids c7Table none = c7Table.toFinset
    ∧ (pageQuery c7Table (0 * 1000)).length = 1000
    ∧ get_existing_food_ids c7Table (some 0) = ∅ := by
  have h := claim_C7_existing_set_resolver c7Table (some 0)
  have hp : pagesRead c7Table = 2 := by
    rw [h.2.1]
    norm_num [c7Table]
  refine ⟨hp, h.1, ?_, ?_⟩
  · exact h.2.2.2.1 0 (by rw [hp]; norm_num)
  · exact h.2.2.2.2 0 rfl (by rw [hp]; norm_num)

/-! ## Batch decomposition toolkit for the upload engine -/

lemma length_le_totalBatches_mul (foods : List CleanFood) (bs : Nat) (hbs : 0 < bs) :
    foods.length ≤ totalBatches foods bs * bs := by
  have h := (Nat.div_lt_iff_lt_mul hbs).mp
    (Nat.lt_succ_self ((foods.length + bs - 1) / bs))
  unfold totalBatches
  rw [Nat.succ_mul] at h
  omega

lemma flatMap_slices {α : Type} (l : List α) (bs : Nat) :
    ∀ (k s : Nat), l.length ≤ (s + k) * bs →
      (List.range' s k).flatMap (fun i => (l.drop (i * bs)).take bs)
        = l.drop (s * bs) := by
  intro k
  induction k with
  | zero =>
    intro s h
    simp only [List.range', List.flatMap_nil]
    exact (List.drop_eq_nil_of_le (by simpa using h)).symm
  | succ k ih =>
    intro s h
    rw [List.range'_succ, List.flatMap_cons]
    rw [ih (s + 1) (by
      have heq : s + 1 + k = s + (k + 1) := by omega
      rw [heq]
      exact h)]
    rw [show (s + 1) * bs = s * bs + bs by ring, ← List.drop_drop]
    exact List.take_append_drop bs (l.drop (s * bs))

lemma batchIds_eq_slice (foods : List CleanFood) (bs i : Nat) :
    batchIds foods bs i
      = ((foods.map (fun f => f.external_id)).drop (i * bs)).take bs := by
  simp [batchIds, batchOf, List.map_take, List.map_drop]

lemma batches_cover (foods : List CleanFood) (bs : Nat) (hbs : 0 < bs) :
    (List.range' 0 (totalBatches foods bs)).flatMap (fun i => batchOf foods bs i)
      = foods := by
  have h := flatMap_slices foods bs (totalBatches foods bs) 0
    (by simpa using length_le_totalBatches_mul foods bs hbs)
  simpa [batchOf] using h

lemma batchIds_cover (foods : List CleanFood) (bs : Nat) (hbs : 0 < bs) :
    (List.range' 0 (totalBatches foods bs)).flatMap (fun i => batchIds foods bs i)
      = foods.map (fun f => f.external_id) := by
  have h := flatMap_slices (foods.map (fun f => f.external_id)) bs
    (totalBatches foods bs) 0
    (by simpa using length_le_totalBatches_mul foods bs hbs)
  simp only [Nat.zero_mul, List.drop_zero] at h
  simp only [batchIds_eq_slice]
  exact h

lemma batchIds_subset (foods : List CleanFood) (bs i : Nat) :
    ∀ x ∈ batchIds foods bs i, x ∈ foods.map (fun f => f.external_id) := by
  intro x hx
  rw [batchIds_eq_slice] at hx
  exact List.mem_of_mem_drop (List.mem_of_mem_take hx)

lemma batchIds_pairwise_disjoint (foods : List CleanFood) (bs : Nat) (hbs : 0 < bs)
    (hnodup : (foods.map (fun f => f.external_id)).Nodup)
    {i j : Nat} (hi : i < totalBatches foods bs) (hj : j < totalBatches foods bs)
    (hne : i ≠ j) : ∀ x ∈ batchIds foods bs i, x ∉ batchIds foods bs j := by
  rw [← batchIds_cover foods bs hbs] at hnodup
  have hpair := (List.nodup_flatMap.mp hnodup).2
  have hsymm : Symmetric
      (Function.onFun List.Disjoint (fun i => batchIds foods bs i)) := by
    intro a b hab
    exact List.disjoint_comm.mp hab
  have hd := List.Pairwise.forall hsymm hpair
    (List.mem_range'_1.mpr ⟨Nat.zero_le i, by omega⟩)
    (List.mem_range'_1.mpr ⟨Nat.zero_le j, by omega⟩) hne
  exact fun x hx hx2 => hd hx hx2

/-! ## Loop characterization lemmas for `batch_upload_foods` -/

lemma committedIds_succ (foods : List CleanFood) (bs : Nat)
    (embed : Nat → Option Nat) (start k : Nat) :
    committedIds foods bs embed start (k + 1)
      = (if embed start = some (batchOf foods bs start).length
          then batchIds foods bs start else [])
        ++ committedIds foods bs embed (start + 1) k := by
  unfold committedIds
  rw [List.range'_succ, List.filter_cons]
  by_cases h : embed start = some (batchOf foods bs start).length
  · simp [h]
  · simp [h]

lemma uploadLoop_complete (foods : List CleanFood) (bs : Nat)
    (embed : Nat → Option Nat) (upsert : Nat → Bool) :
    ∀ (k start cnt : Nat) (prog : Progress) (file : Option Progress)
      (ups : List String),
      (∀ i, start ≤ i → i < start + k →
        (∃ m, embed i = some m)
        ∧ (embed i = some (batchOf foods bs i).length → upsert i = true)) →
      (uploadLoop foods bs embed upsert k start cnt prog file ups).halted = false
      ∧ (uploadLoop foods bs embed upsert k start cnt prog file ups).file = none
      ∧ (uploadLoop foods bs embed upsert k start cnt prog file ups).upserted
          = ups ++ committedIds foods bs embed start k
      ∧ (uploadLoop foods bs embed upsert k start cnt prog file ups).mem.uploaded_ids
          = prog.uploaded_ids ++ committedIds foods bs embed start k
      ∧ (uploadLoop foods bs embed upsert k start cnt prog file ups).returned
          = cnt + (committedIds foods bs embed start k).length := by
  intro k
  induction k with
  | zero =>
    intro start cnt prog file ups hpre
    simp [uploadLoop, committedIds]
  | succ k ih =>
    intro start cnt prog file ups hpre
    obtain ⟨⟨m, hm⟩, himp⟩ := hpre start (le_refl _) (by omega)
    have hshift : ∀ i, start + 1 ≤ i → i < start + 1 + k →
        (∃ m2, embed i = some m2)
        ∧ (embed i = some (batchOf foods bs i).length → upsert i = true) :=
      fun i h1 h2 => hpre i (by omega) (by omega)
    rw [committedIds_succ]
    by_cases hlen : m = (batchOf foods bs start).length
    · subst hlen
      have hup : upsert start = true := himp hm
      have hstep : uploadLoop foods bs embed upsert (k + 1) start cnt prog file ups
          = uploadLoop foods bs embed upsert k (start + 1)
              (cnt + (batchOf foods bs start).length)
              ⟨prog.uploaded_ids ++ batchIds foods bs start, start + 1,
                cnt + (batchOf foods bs start).length⟩
              (some ⟨prog.uploaded_ids ++ batchIds foods bs start, start + 1,
                cnt + (batchOf foods bs start).length⟩)
              (ups ++ batchIds foods bs start) := by
        simp [uploadLoop, hm, hup]
      rw [hstep]
      obtain ⟨h1, h2, h3, h4, h5⟩ := ih (start + 1)
        (cnt + (batchOf foods bs start).length)
        ⟨prog.uploaded_ids ++ batchIds foods bs start, start + 1,
          cnt + (batchOf foods bs start).length⟩
        (some ⟨prog.uploaded_ids ++ batchIds foods bs start, start + 1,
          cnt + (batchOf foods bs start).length⟩)
        (ups ++ batchIds foods bs start) hshift
      refine ⟨h1, h2, ?_, ?_, ?_⟩
      · rw [h3, hm]
        simp [List.append_assoc]
      · rw [h4, hm]
        simp [List.append_assoc]
      · rw [h5, hm]
        simp [batchIds]
        omega
    · have hstep : uploadLoop foods bs embed upsert (k + 1) start cnt prog file ups
          = uploadLoop foods bs embed upsert k (start + 1) cnt prog file ups := by
        simp [uploadLoop, hm, hlen]
      rw [hstep]
      obtain ⟨h1, h2, h3, h4, h5⟩ := ih (start + 1) cnt prog file ups hshift
      have hcond : ¬ embed start = some (batchOf foods bs start).length := by
        rw [hm]
        simp [hlen]
      refine ⟨h1, h2, ?_, ?_, ?_⟩
      · rw [h3]
        simp [hcond]
      · rw [h4]
        simp [hcond]
      · rw [h5]
        simp [hcond]

lemma idsOfBatches_succ (foods : List CleanFood) (bs start k : Nat) :
    idsOfBatches foods bs start (k + 1)
      = batchIds foods bs start ++ idsOfBatches foods bs (start + 1) k := by
  unfold idsOfBatches
  rw [List.range'_succ, List.flatMap_cons]

lemma uploadLoop_fail (foods : List CleanFood) (bs : Nat)
    (embed : Nat → Option Nat) (upsert : Nat → Bool) :
    ∀ (d K start cnt : Nat) (prog : Progress) (file : Option Progress)
      (ups : List String),
      d < K →
      (∀ i, start ≤ i → i < start + d →
        embed i = some (batchOf foods bs i).length ∧ upsert i = true) →
      (embed (start + d) = none
        ∨ (embed (start + d) = some (batchOf foods bs (start + d)).length
            ∧ upsert (start + d) = false)) →
      (uploadLoop foods bs embed upsert K start cnt prog file ups).halted = true
      ∧ (uploadLoop foods bs embed upsert K start cnt prog file ups).returned
          = cnt + (idsOfBatches foods bs start d).length
      ∧ (uploadLoop foods bs embed upsert K start cnt prog file ups).upserted
          = ups ++ idsOfBatches foods bs start d
      ∧ (uploadLoop foods bs embed upsert K start cnt prog file ups).mem
          = (if d = 0 then prog
             else ⟨prog.uploaded_ids ++ idsOfBatches foods bs start d, start + d,
               cnt + (idsOfBatches foods bs start d).length⟩)
      ∧ (uploadLoop foods bs embed upsert K start cnt prog file ups).file
          = (if d = 0 then file
             else some ⟨prog.uploaded_ids ++ idsOfBatches foods bs start d,
               start + d, cnt + (idsOfBatches foods bs start d).length⟩) := by
  intro d
  induction d with
  | zero =>
    intro K start cnt prog file ups hK hpre hfail
    obtain ⟨K2, rfl⟩ : ∃ k2, K = k2 + 1 := ⟨K - 1, by omega⟩
    rcases hfail with hf | ⟨hf, hup⟩
    · rw [Nat.add_zero] at hf
      simp [uploadLoop, hf, idsOfBatches]
    · rw [Nat.add_zero] at hf hup
      simp [uploadLoop, hf, hup, idsOfBatches]
  | succ d ih =>
    intro K start cnt prog file ups hK hpre hfail
    obtain ⟨K2, rfl⟩ : ∃ k2, K = k2 + 1 := ⟨K - 1, by omega⟩
    obtain ⟨hm, hup⟩ := hpre start (le_refl _) (by omega)
    have hstep : uploadLoop foods bs embed upsert (K2 + 1) start cnt prog file ups
        = uploadLoop foods bs embed upsert K2 (start + 1)
            (cnt + (batchOf foods bs start).length)
            ⟨prog.uploaded_ids ++ batchIds foods bs start, start + 1,
              cnt + (batchOf foods bs start).length⟩
            (some ⟨prog.uploaded_ids ++ batchIds foods bs start, start + 1,
              cnt + (batchOf foods bs start).length⟩)
            (ups ++ batchIds foods bs start) := by
      simp [uploadLoop, hm, hup]
    have hshift : ∀ i, start + 1 ≤ i → i < start + 1 + d →
        embed i = some (batchOf foods bs i).length ∧ upsert i = true :=
      fun i h1 h2 => hpre i (by omega) (by omega)
    have hfail2 : embed (start + 1 + d) = none
        ∨ (embed (start + 1 + d) = some (batchOf foods bs (start + 1 + d)).length
            ∧ upsert (start + 1 + d) = false) := by
      have heq : start + 1 + d = start + (d + 1) := by omega
      rw [heq]
      exact hfail
    obtain ⟨h1, h2, h3, h4, h5⟩ := ih K2 (start + 1)
      (cnt + (batchOf foods bs start).length)
      ⟨prog.uploaded_ids ++ batchIds foods bs start, start + 1,
        cnt + (batchOf foods bs start).length⟩
      (some ⟨prog.uploaded_ids ++ batchIds foods bs start, start + 1,
        cnt + (batchOf foods bs start).length⟩)
      (ups ++ batchIds foods bs start) (by omega) hshift hfail2
    rw [hstep]
    have hlen : (batchIds foods bs start).length = (batchOf foods bs start).length := by
      simp [batchIds]
    refine ⟨h1, ?_, ?_, ?_, ?_⟩
    · rw [h2, idsOfBatches_succ]
      simp only [List.length_append]
      omega
    · rw [h3, idsOfBatches_succ, List.append_assoc]
    · rw [h4, idsOfBatches_succ]
      by_cases hd : d = 0
      · subst hd
        simp [idsOfBatches, hlen]
      · rw [if_neg hd, if_neg (by omega : ¬ d + 1 = 0)]
        simp only [Progress.mk.injEq]
        refine ⟨by simp [List.append_assoc], by omega, ?_⟩
        simp only [List.length_append]
        omega
    · rw [h5, idsOfBatches_succ]
      by_cases hd : d = 0
      · subst hd
        simp [idsOfBatches, hlen]
      · rw [if_neg hd, if_neg (by omega : ¬ d + 1 = 0)]
        simp only [Option.some.injEq, Progress.mk.injEq]
        refine ⟨by simp [List.append_assoc], by omega, ?_⟩
        simp only [List.length_append]
        omega

/-- C2: Failure atomicity.  If every batch from the resume index up to
batch `j` commits cleanly and batch `j` fails — the embedding request
raises after retry exhaustion (`embed j = none`) or the upsert raises
(`upsert j = false`) — then `batch_upload_foods` stops immediately
(halted), returns the running count of records uploaded so far, has
upserted exactly the batches before `j`, and the persisted ledger is
exactly the state after the last fully committed batch: when nothing
committed the file is untouched, otherwise it records exactly the
committed batches' ids with batch index `j`; the failed batch's ids are
in neither the in-memory nor the persisted uploaded set. -/
theorem claim_C2_failure_atomicity (foods : List CleanFood) (bs : Nat)
    (embed : Nat → Option Nat) (upsert : Nat → Bool) (file : Option Progress)
    (j : Nat)
    (hbs : 0 < bs)
    (hstart : (load_progress file).last_batch ≤ j)
    (hj : j < totalBatches foods bs)
    (hpre : ∀ i, (load_progress file).last_batch ≤ i → i < j →
      embed i = some (batchOf foods bs i).length ∧ upsert i = true)
    (hfail : embed j = none
      ∨ (embed j = some (batchOf foods bs j).length ∧ upsert j = false)) :
    (batch_upload_foods foods bs embed upsert file).halted = true
    ∧ (batch_upload_foods foods bs embed upsert file).returned
        = (load_progress file).total_uploaded
          + (idsOfBatches foods bs (load_progress file).last_batch
              (j - (load_progress file).last_batch)).length
    ∧ (batch_upload_foods foods bs embed upsert file).upserted
        = idsOfBatches foods bs (load_progress file).last_batch
            (j - (load_progress file).last_batch)
    ∧ (batch_upload_foods foods bs embed upsert file).mem
        = (if j = (load_progress file).last_batch then load_progress file
           else ⟨(load_progress file).uploaded_ids
                   ++ idsOfBatches foods bs (load_progress file).last_batch
                        (j - (load_progress file).last_batch),
                 j,
                 (load_progress file).total_uploaded
                   + (idsOfBatches foods bs (load_progress file).last_batch
                       (j - (load_progress file).last_batch)).length⟩)
    ∧ (batch_upload_foods foods bs embed upsert file).file
        = (if j = (load_progress file).last_batch then file
           else some ⟨(load_progress file).uploaded_ids
                   ++ idsOfBatches foods bs (load_progress file).last_batch
                        (j - (load_progress file).last_batch),
                 j,
                 (load_progress file).total_uploaded
                   + (idsOfBatches foods bs (load_progress file).last_batch
                       (j - (load_progress file).last_batch)).length⟩)
    ∧ (((foods.map (fun f => f.external_id)).Nodup
          ∧ (∀ f ∈ foods, f.external_id ∉ (load_progress file).uploaded_ids)) →
        ∀ x ∈ batchIds foods bs j,
          x ∉ (batch_upload_foods foods bs embed upsert file).mem.uploaded_ids) := by
  have hne : foods ≠ [] := by
    intro hnil
    rw [hnil] at hj
    unfold totalBatches at hj
    simp only [List.length_nil, Nat.zero_add] at hj
    rw [Nat.div_eq_of_lt (by omega)] at hj
    omega
  have hj2 : j = (load_progress file).last_batch
      + (j - (load_progress file).last_batch) := by omega
  obtain ⟨h1, h2, h3, h4, h5⟩ := uploadLoop_fail foods bs embed upsert
    (j - (load_progress file).last_batch)
    (totalBatches foods bs - (load_progress file).last_batch)
    (load_progress file).last_batch
    (load_progress file).total_uploaded
    (load_progress file) file [] (by omega)
    (fun i hi1 hi2 => hpre i hi1 (by omega))
    (by rw [← hj2]; exact hfail)
  have hrun : batch_upload_foods foods bs embed upsert file
      = uploadLoop foods bs embed upsert
          (totalBatches foods bs - (load_progress file).last_batch)
          (load_progress file).last_batch
          (load_progress file).total_uploaded
          (load_progress file) file [] := by
    unfold batch_upload_foods
    rw [if_neg hne]
  have hmem : (batch_upload_foods foods bs embed upsert file).mem
      = (if j = (load_progress file).last_batch then load_progress file
         else ⟨(load_progress file).uploaded_ids
                 ++ idsOfBatches foods bs (load_progress file).last_batch
                      (j - (load_progress file).last_batch),
               j,
               (load_progress file).total_uploaded
                 + (idsOfBatches foods bs (load_progress file).last_batch
                     (j - (load_progress file).last_batch)).length⟩) := by
    rw [hrun, h4]
    by_cases hd : j = (load_progress file).last_batch
    · rw [if_pos (by omega), if_pos hd]
    · rw [if_neg (by omega), if_neg hd]
      have heq2 : (load_progress file).last_batch
          + (j - (load_progress file).last_batch) = j := by omega
      rw [heq2]
  refine ⟨by rw [hrun]; exact h1, by rw [hrun]; exact h2,
    by rw [hrun, h3]; simp, hmem, ?_, ?_⟩
  · rw [hrun, h5]
    by_cases hd : j = (load_progress file).last_batch
    · rw [if_pos (by omega), if_pos hd]
    · rw [if_neg (by omega), if_neg hd]
      have heq2 : (load_progress file).last_batch
          + (j - (load_progress file).last_batch) = j := by omega
      rw [heq2]
  · rintro ⟨hnodup, hdisj⟩ x hx
    have hxmap : x ∈ foods.map (fun f => f.external_id) :=
      batchIds_subset foods bs j x hx
    have hxinit : x ∉ (load_progress file).uploaded_ids := by
      rw [List.mem_map] at hxmap
      obtain ⟨f, hf, rfl⟩ := hxmap
      exact hdisj f hf
    rw [hmem]
    by_cases hd : j = (load_progress file).last_batch
    · rw [if_pos hd]
      exact hxinit
    · rw [if_neg hd]
      simp only [List.mem_append]
      rintro (hc | hc)
      · exact hxinit hc
      · rw [idsOfBatches, List.mem_flatMap] at hc
        obtain ⟨i, hi, hxi⟩ := hc
        rw [List.mem_range'_1] at hi
        exact batchIds_pairwise_disjoint foods bs hbs hnodup hj
          (by omega) (by omega) x hx hxi

/-- A minimal cleaned record with a given external id, for concrete
engine runs. -/
def mkFoodW (eid : String) : CleanFood :=
  { external_id := eid, name := "n", description := "n", brand := none,
    category := "c", calories_per_100g := 1, protein_per_100g := 0,
    fat_per_100g := 0, carbs_per_100g := 0, fiber_per_100g := 0,
    sugar_per_100g := 0, sodium_per_100g := 0, data_source := "usda",
    nutrients := ⟨0, 0, 0, 0, 0⟩, embedding_text := "t" }

/-- Three-record input for the C2 witness run. -/
def c2Foods : List CleanFood := [mkFoodW "a", mkFoodW "b", mkFoodW "c"]

/-- Embedding oracle for the C2 witness: batch 1's request raises. -/
def c2Embed : Nat → Option Nat := fun i => if i = 1 then none else some 1

/-- Upsert oracle for the C2 witness: upserts always succeed. -/
def c2Upsert : Nat → Bool := fun _ => true

/-- Witness for C2: with batch size 1, a fresh ledger, and the embedding
request failing on batch 1, the run halts after committing exactly batch
0 and the failed batch's id is not in the ledger. -/
theorem claim_C2_witness :
    (batch_upload_foods c2Foods 1 c2Embed c2Upsert none).halted = true
    ∧ (batch_upload_foods c2Foods 1 c2Embed c2Upsert none).returned = 1
    ∧ (batch_upload_foods c2Foods 1 c2Embed c2Upsert none).upserted = ["a"]
    ∧ (batch_upload_foods c2Foods 1 c2Embed c2Upsert none).file = some ⟨["a"], 1, 1⟩
    ∧ "b" ∉ (batch_upload_foods c2Foods 1 c2Embed c2Upsert none).mem.uploaded_ids := by
  have h := claim_C2_failure_atomicity c2Foods 1 c2Embed c2Upsert none 1
    (by norm_num)
    (by decide)
    (by decide)
    (by
      intro i h1 h2
      have hi : i = 0 := by omega
      subst hi
      exact ⟨by decide, rfl⟩)
    (Or.inl (by decide))
  refine ⟨h.1, h.2.1.trans (by decide), (h.2.2.1).trans (by decide),
    (h.2.2.2.2.1).trans (by decide), ?_⟩
  exact h.2.2.2.2.2 ⟨by decide, by decide⟩ "b" (by decide)

lemma flatMap_if_filter {α : Type} (l : List Nat) (F g : Nat → List α)
    (p : Nat → Bool) (h : ∀ i ∈ l, F i = if p i then g i else []) :
    l.flatMap F = (l.filter p).flatMap g := by
  induction l with
  | nil => rfl
  | cons a l ih =>
    rw [List.flatMap_cons, List.filter_cons]
    by_cases hp : p a = true
    · rw [if_pos hp, List.flatMap_cons, h a (by simp), if_pos hp,
        ih (fun i hi => h i (by simp [hi]))]
    · rw [if_neg hp, h a (by simp), if_neg hp, List.nil_append,
        ih (fun i hi => h i (by simp [hi]))]

lemma batchIds_subset_committed (foods : List CleanFood) (bs : Nat)
    (embed : Nat → Option Nat) {i : Nat} (hi : i < totalBatches foods bs)
    (hc : embed i = some (batchOf foods bs i).length) :
    ∀ x ∈ batchIds foods bs i,
      x ∈ committedIds foods bs embed 0 (totalBatches foods bs) := by
  intro x hx
  unfold committedIds
  rw [List.mem_flatMap]
  refine ⟨i, ?_, hx⟩
  rw [List.mem_filter]
  exact ⟨List.mem_range'_1.mpr ⟨Nat.zero_le i, by omega⟩, by simp [hc]⟩

lemma not_mem_committed_of_mismatch (foods : List CleanFood) (bs : Nat)
    (embed : Nat → Option Nat) (hbs : 0 < bs)
    (hnodup : (foods.map (fun f => f.external_id)).Nodup)
    {i : Nat} (hi : i < totalBatches foods bs)
    (hmis : ¬ embed i = some (batchOf foods bs i).length) :
    ∀ x ∈ batchIds foods bs i,
      x ∉ committedIds foods bs embed 0 (totalBatches foods bs) := by
  intro x hx hc
  unfold committedIds at hc
  rw [List.mem_flatMap] at hc
  obtain ⟨i2, hi2, hxi2⟩ := hc
  rw [List.mem_filter] at hi2
  obtain ⟨hi2r, hi2c⟩ := hi2
  rw [List.mem_range'_1] at hi2r
  have hne : i ≠ i2 := by
    intro hii
    subst hii
    simp at hi2c
    exact hmis hi2c
  exact batchIds_pairwise_disjoint foods bs hbs hnodup hi (by omega) hne x hx hxi2

lemma filter_not_committed (foods : List CleanFood) (bs : Nat)
    (embed : Nat → Option Nat) (hbs : 0 < bs)
    (hnodup : (foods.map (fun f => f.external_id)).Nodup) :
    foods.filter (fun f =>
        decide (f.external_id
          ∉ committedIds foods bs embed 0 (totalBatches foods bs)))
      = ((List.range' 0 (totalBatches foods bs)).filter
          (fun i => ! decide (embed i = some (batchOf foods bs i).length))).flatMap
          (fun i => batchOf foods bs i) := by
  obtain ⟨C, hC⟩ : ∃ C, C = committedIds foods bs embed 0 (totalBatches foods bs) :=
    ⟨_, rfl⟩
  rw [← hC]
  conv_lhs => rw [← batches_cover foods bs hbs]
  rw [List.filter_flatMap]
  apply flatMap_if_filter
  intro i hi
  rw [List.mem_range'_1] at hi
  obtain ⟨hi0, hi2⟩ := hi
  have hilt : i < totalBatches foods bs := by omega
  by_cases hc : embed i = some (batchOf foods bs i).length
  · rw [if_neg (by simp [hc])]
    apply List.filter_eq_nil_iff.mpr
    intro f hf
    simp only [decide_eq_true_eq, not_not]
    rw [hC]
    exact batchIds_subset_committed foods bs embed hilt hc f.external_id
      (by rw [batchIds, List.mem_map]; exact ⟨f, hf, rfl⟩)
  · rw [if_pos (by simp [hc])]
    apply List.filter_eq_self.mpr
    intro f hf
    simp only [decide_eq_true_eq]
    rw [hC]
    exact not_mem_committed_of_mismatch foods bs embed hbs hnodup hilt hc
      f.external_id (by rw [batchIds, List.mem_map]; exact ⟨f, hf, rfl⟩)

/-- C3: Mismatch skip.  In a run with no fatal failures (every embedding
request returns, every attempted upsert succeeds), every batch whose
embedding call returns a vector count different from its size is not
upserted and none of its ids enter the ledger; the run continues through
all remaining batches to completion (the ledger file is deleted), the
batches actually upserted are exactly the well-counted ones, and a rerun
over the same input — against a store that now also contains the
upserted ids and with a fresh ledger — selects exactly the skipped
batches' records, so it reattempts them. -/
theorem claim_C3_mismatch_skip (foods : List CleanFood) (bs : Nat)
    (embed : Nat → Option Nat) (upsert : Nat → Bool)
    (hbs : 0 < bs)
    (hembed : ∀ i, i < totalBatches foods bs → ∃ m, embed i = some m)
    (hupsert : ∀ i, i < totalBatches foods bs → upsert i = true)
    (hnodup : (foods.map (fun f => f.external_id)).Nodup) :
    (batch_upload_foods foods bs embed upsert none).halted = false
    ∧ (batch_upload_foods foods bs embed upsert none).file = none
    ∧ (batch_upload_foods foods bs embed upsert none).upserted
        = committedIds foods bs embed 0 (totalBatches foods bs)
    ∧ (∀ i, i < totalBatches foods bs →
        ¬ embed i = some (batchOf foods bs i).length →
        ∀ x ∈ batchIds foods bs i,
          x ∉ (batch_upload_foods foods bs embed upsert none).upserted
          ∧ x ∉ (batch_upload_foods foods bs embed upsert none).mem.uploaded_ids)
    ∧ (∀ existing_ids : Finset String,
        (∀ f ∈ foods, f.external_id ∉ existing_ids) →
        (filter_new_foods foods
            (existing_ids
              ∪ (batch_upload_foods foods bs embed upsert none).upserted.toFinset)
            (load_progress none)).1
          = ((List.range' 0 (totalBatches foods bs)).filter
              (fun i => ! decide (embed i = some (batchOf foods bs i).length))).flatMap
              (fun i => batchOf foods bs i)) := by
  by_cases hnil : foods = []
  · subst hnil
    have htot : totalBatches [] bs = 0 := by
      unfold totalBatches
      simp only [List.length_nil, Nat.zero_add]
      exact Nat.div_eq_of_lt (by omega)
    refine ⟨rfl, rfl, ?_, ?_, ?_⟩
    · simp [batch_upload_foods, committedIds, htot]
    · intro i hi
      rw [htot] at hi
      omega
    · intro existing_ids hE
      simp [filter_new_foods, htot]
  · have hrun : batch_upload_foods foods bs embed upsert none
        = uploadLoop foods bs embed upsert (totalBatches foods bs) 0 0
            defaultProgress none [] := by
      unfold batch_upload_foods
      rw [if_neg hnil]
      rfl
    obtain ⟨h1, h2, h3, h4, h5⟩ := uploadLoop_complete foods bs embed upsert
      (totalBatches foods bs) 0 0 defaultProgress none []
      (fun i hi1 hi2 =>
        ⟨hembed i (by omega), fun hc => hupsert i (by omega)⟩)
    have hups : (batch_upload_foods foods bs embed upsert none).upserted
        = committedIds foods bs embed 0 (totalBatches foods bs) := by
      rw [hrun, h3]
      simp
    have hmemids : (batch_upload_foods foods bs embed upsert none).mem.uploaded_ids
        = committedIds foods bs embed 0 (totalBatches foods bs) := by
      rw [hrun, h4]
      simp [defaultProgress]
    refine ⟨by rw [hrun]; exact h1, by rw [hrun]; exact h2, hups, ?_, ?_⟩
    · intro i hi hmis x hx
      rw [hups, hmemids]
      have hnc := not_mem_committed_of_mismatch foods bs embed hbs hnodup hi hmis x hx
      exact ⟨hnc, hnc⟩
    · intro existing_ids hE
      rw [hups]
      have hstep1 : (filter_new_foods foods
          (existing_ids
            ∪ (committedIds foods bs embed 0 (totalBatches foods bs)).toFinset)
          (load_progress none)).1
          = foods.filter (fun f =>
              decide (f.external_id
                ∉ committedIds foods bs embed 0 (totalBatches foods bs))) := by
        unfold filter_new_foods
        apply List.filter_congr
        intro f hf
        simp only [decide_eq_decide]
        simp only [Finset.mem_union, List.mem_toFinset]
        constructor
        · intro hcon
          exact fun hc => hcon.1 (Or.inr hc)
        · intro hcon
          refine ⟨fun hc => ?_, by simp [load_progress, defaultProgress]⟩
          rcases hc with hc | hc
          · exact hE f hf hc
          · exact hcon hc
      rw [hstep1]
      exact filter_not_committed foods bs embed hbs hnodup

/-- Embedding oracle for the C3 witness: batch 1 gets a wrong vector
count (5 instead of 1), all other batches are well-counted. -/
def c3Embed : Nat → Option Nat := fun i => if i = 1 then some 5 else some 1

/-- Witness for C3: with batch size 1 and batch 1 mismatching, the run
completes, upserts exactly batches 0 and 2, keeps batch 1's id out of
the ledger, and a rerun's filter selects exactly batch 1's record. -/
theorem claim_C3_witness :
    (batch_upload_foods c2Foods 1 c3Embed c2Upsert none).halted = false
    ∧ (batch_upload_foods c2Foods 1 c3Embed c2Upsert none).file = none
    ∧ (batch_upload_foods c2Foods 1 c3Embed c2Upsert none).upserted = ["a", "c"]
    ∧ ("b" ∉ (batch_upload_foods c2Foods 1 c3Embed c2Upsert none).upserted
        ∧ "b" ∉ (batch_upload_foods c2Foods 1 c3Embed c2Upsert none).mem.uploaded_ids)
    ∧ (filter_new_foods c2Foods
        (∅ ∪ (batch_upload_foods c2Foods 1 c3Embed c2Upsert none).upserted.toFinset)
        (load_progress none)).1 = [mkFoodW "b"] := by
  have h := claim_C3_mismatch_skip c2Foods 1 c3Embed c2Upsert
    (by norm_num)
    (by
      intro i hi
      refine ⟨if i = 1 then 5 else 1, ?_⟩
      unfold c3Embed
      split_ifs <;> rfl)
    (fun i hi => rfl)
    (by decide)
  refine ⟨h.1, h.2.1, h.2.2.1.trans (by decide), ?_, ?_⟩
  · exact h.2.2.2.1 1 (by decide) (by decide) "b" (by decide)
  · exact (h.2.2.2.2 ∅ (by simp)).trans (by decide)

/-! ## C1: resumption across reruns -/

/-- The cleaned input of the C1 scenario: 51 records with ids `0`..`50`,
which the default batch size 50 partitions into two batches. -/
def c1Foods : List CleanFood := (List.range 51).map (fun i => mkFoodW (toString i))

/-- The ledger a first run persists after committing batch 0 of 2: ids
`0`..`49` uploaded, next batch index 1, 50 records uploaded. -/
def c1Ledger : Progress := ⟨(List.range 50).map (fun i => toString i), 1, 50⟩

/-- The rerun's new-work list, exactly as `main` computes it:
`filter_new_foods` over the same input with the persisted ledger
(the store query is taken as returning nothing, its weakest case). -/
def c1NewFoods : List CleanFood := (filter_new_foods c1Foods ∅ c1Ledger).1

/-- A fully functioning embedding service for the rerun: every request
returns exactly one vector per record. -/
def c1Embed : Nat → Option Nat := fun i => some ((batchOf c1NewFoods 50 i).length)

/-- C1 fails on the code: after a run committed batch 0 of 2 (ledger
index 1, ids `0`..`49` uploaded), the rerun's new-work list is exactly
the 1 remaining never-uploaded record `50`, yet `batch_upload_foods`
starts at the ledger's batch index 1 of that already-filtered list, so
its loop body never executes: nothing is upserted, record `50` stays
missing, and the progress file is deleted as if the upload completed. -/
theorem claim_C1_resumption_code_bug :
    c1NewFoods = [mkFoodW "50"]
    ∧ (batch_upload_foods c1NewFoods 50 c1Embed c2Upsert (some c1Ledger)).upserted = []
    ∧ (batch_upload_foods c1NewFoods 50 c1Embed c2Upsert (some c1Ledger)).file = none
    ∧ (batch_upload_foods c1NewFoods 50 c1Embed c2Upsert (some c1Ledger)).returned = 50
    ∧ (batch_upload_foods c1NewFoods 50 c1Embed c2Upsert (some c1Ledger)).halted = false
    ∧ "50" ∉ c1Ledger.uploaded_ids := by
  refine ⟨by decide, by decide, by decide, by decide, by decide, by decide⟩
